import Mathlib

/-!
Verification of the frame-processing substrate of a real-time conversational
pipeline (`nano-pipecat-ts`).  The definitions below are a shallow embedding of
the TypeScript sources: the frame data model (`src/frames/base.ts`,
`src/frames/system.ts`, the control-frame module and the data-frame module),
the per-processor runtime (`src/processors/base.ts`), the LLM stage
(`src/services/llm/base.ts`), the TTS stage (`src/services/tts/base.ts`), the
STT stage (`src/services/stt/base.ts`), the audio-batching stage
(`src/processors/audioBuffer.ts`, pre-roll variant) and the RMS
voice-activity detector (`SimpleVADProcessor` / `BaseInputTransport`).
-/

namespace Pipecat

/-- Direction of frame flow (`FrameDirection` in `processors/base.ts`). -/
inductive Direction
  | downstream
  | upstream
deriving DecidableEq, Repr

mutual
/-- JSON values, modelling the `unknown` payloads that travel in frames
(`FunctionCallResultFrame.result`, function-call arguments).  Mutual with the
spine types so that all recursion below is structural. -/
inductive Json
  | null
  | bool (b : Bool)
  | num (n : Int)
  | str (s : String)
  | arr (xs : JsonList)
  | obj (fs : JsonFields)
deriving DecidableEq, Repr

inductive JsonList
  | nil
  | cons (hd : Json) (tl : JsonList)
deriving DecidableEq, Repr

inductive JsonFields
  | nil
  | cons (key : String) (val : Json) (tl : JsonFields)
deriving DecidableEq, Repr
end

mutual
/-- `JSON.stringify` for the fragment of JSON modelled here (string payloads are
assumed not to need escaping, as in all repository tests). -/
def Json.stringify : Json → String
  | .null => "null"
  | .bool true => "true"
  | .bool false => "false"
  | .num n => toString n
  | .str s => "\"" ++ s ++ "\""
  | .arr xs => "[" ++ JsonList.stringify xs ++ "]"
  | .obj fs => "\x7b" ++ JsonFields.stringify fs ++ "\x7d"

def JsonList.stringify : JsonList → String
  | .nil => ""
  | .cons hd .nil => Json.stringify hd
  | .cons hd tl => Json.stringify hd ++ "," ++ JsonList.stringify tl

def JsonFields.stringify : JsonFields → String
  | .nil => ""
  | .cons k v .nil => "\"" ++ k ++ "\":" ++ Json.stringify v
  | .cons k v tl => "\"" ++ k ++ "\":" ++ Json.stringify v ++ "," ++ JsonFields.stringify tl
end

/-- A conversation message (`ChatMessage` in the control-frame module).  The
role is one of "system" | "user" | "assistant" | "function"; `name` is the
optional name attached to function messages. -/
structure ChatMessage where
  role : String
  content : String
  name : Option String := none
deriving DecidableEq, Repr

/-- A tool definition (`LLMTool`); only the function name is relevant to the
runtime logic verified here. -/
structure LLMTool where
  name : String
deriving DecidableEq, Repr

/-- Tool-choice policy (`LLMSetToolChoiceFrame.toolChoice`). -/
inductive ToolChoice
  | auto
  | none
  | required
  | function (name : String)
deriving DecidableEq, Repr

/-- A function call returned by an LLM adapter (`LLMResult.functionCalls`
entries in `services/llm/base.ts`). -/
structure FunctionCallInfo where
  callId : String
  name : String
  arguments : Json := .obj .nil
deriving DecidableEq, Repr

/-- The tag of a frame: each constructor corresponds to one concrete frame
class of the repository.  System frames are from `frames/system.ts`; control
frames from the control-frame module; data frames from the data-frame module
(that file is not among the provided sources; its constructor fields follow
the constructor calls in `services/stt/base.ts`, `services/tts/base.ts` and
the spec, and its class list follows the `frames` index exports).
`genericData`/`genericControl` stand for the remaining Data/Control classes
(images, transport messages, settings updates), whose payloads are opaque to
the runtime. -/
inductive FrameKind
  -- System frames (frames/system.ts)
  | start (allowInterruptions : Bool)
  | cancel (reason : Option String)
  | stop
  | interruption
  | error (msg : String) (fatal : Bool)
  | metrics (processor : String)
  | pauseProc (processorId : String)
  | resumeProc (processorId : String)
  -- Control frames
  | endF
  | ttsStarted
  | ttsStopped
  | llmResponseStart (skipTts : Bool)
  | llmResponseEnd (skipTts : Bool)
  | functionCall (callId : String) (functionName : String) (args : Json)
  | functionCallResult (callId : String) (functionName : String) (result : Json)
  | llmRun
  | llmMessagesAppend (messages : List ChatMessage) (runLlm : Bool)
  | llmMessagesUpdate (messages : List ChatMessage) (runLlm : Bool)
  | llmSetTools (tools : List LLMTool)
  | llmSetToolChoice (choice : ToolChoice)
  | llmConfigureOutput (skipTts : Bool)
  | genericControl (tag : Nat)
  -- Data frames
  | inputAudio (audio : List Nat) (sampleRate : Nat) (numChannels : Nat)
  | outputAudio (audio : List Nat) (sampleRate : Nat) (numChannels : Nat)
  | ttsAudio (audio : List Nat) (sampleRate : Nat) (numChannels : Nat)
  | text (text : String) (skipTts : Bool)
  | transcription (text : String) (userId : String) (timestamp : String)
      (language : Option String) (raw : Option Json)
  | interimTranscription (text : String) (userId : String) (timestamp : String)
      (raw : Option Json)
  | userStartedSpeaking
  | userStoppedSpeaking
  | botStartedSpeaking
  | botStoppedSpeaking
  | genericData (tag : Nat)
deriving DecidableEq, Repr

/-- The three ordering categories (`SystemFrame` / `ControlFrame` /
`DataFrame` base classes in `frames/base.ts`). -/
inductive FrameCategory
  | system
  | control
  | data
deriving DecidableEq, Repr

/-- Which base class each frame class extends. -/
def FrameKind.category : FrameKind → FrameCategory
  | .start _ => .system
  | .cancel _ => .system
  | .stop => .system
  | .interruption => .system
  | .error _ _ => .system
  | .metrics _ => .system
  | .pauseProc _ => .system
  | .resumeProc _ => .system
  | .endF => .control
  | .ttsStarted => .control
  | .ttsStopped => .control
  | .llmResponseStart _ => .control
  | .llmResponseEnd _ => .control
  | .functionCall _ _ _ => .control
  | .functionCallResult _ _ _ => .control
  | .llmRun => .control
  | .llmMessagesAppend _ _ => .control
  | .llmMessagesUpdate _ _ => .control
  | .llmSetTools _ => .control
  | .llmSetToolChoice _ => .control
  | .llmConfigureOutput _ => .control
  | .genericControl _ => .control
  | .inputAudio _ _ _ => .data
  | .outputAudio _ _ _ => .data
  | .ttsAudio _ _ _ => .data
  | .text _ _ => .data
  | .transcription _ _ _ _ _ => .data
  | .interimTranscription _ _ _ _ => .data
  | .userStartedSpeaking => .data
  | .userStoppedSpeaking => .data
  | .botStartedSpeaking => .data
  | .botStoppedSpeaking => .data
  | .genericData _ => .data

/-- `isSystemFrame` type guard (`frames/base.ts`). -/
def isSystemFrame (k : FrameKind) : Bool := k.category == .system

/-- `isDataFrame` type guard (`frames/base.ts`). -/
def isDataFrame (k : FrameKind) : Bool := k.category == .data

/-- `isControlFrame` type guard (`frames/base.ts`). -/
def isControlFrame (k : FrameKind) : Bool := k.category == .control

/-- A frame instance: the monotone global id minted in `frames/base.ts`
(`generateFrameId`) together with its tagged value. -/
structure Frame where
  id : Nat
  kind : FrameKind
deriving DecidableEq, Repr

/-- The metrics counters of a processor (`FrameProcessor.metrics`). -/
structure Metrics where
  framesProcessed : Nat := 0
  systemFramesProcessed : Nat := 0
  dataFramesProcessed : Nat := 0
  controlFramesProcessed : Nat := 0
  errorsEncountered : Nat := 0
deriving DecidableEq, Repr

/-- The mutable state of a `FrameProcessor` relevant to scheduling:
the two queues, the pause/stop flags, the interruption-permission flag
recorded from the start frame, and the metrics counters. -/
structure ProcState where
  procId : String := "processor_1"
  procName : String := "FrameProcessor"
  systemQueue : List Frame := []
  dataQueue : List Frame := []
  paused : Bool := false
  allowInterruptions : Bool := true
  shouldStop : Bool := false
  metrics : Metrics := {}
deriving DecidableEq, Repr

/-- A frame emission performed by a processor (`pushFrame` call): the frame's
tagged value and the direction it is pushed in. -/
abbrev Push := FrameKind × Direction

/-- Outcome of the user-defined `processFrame` handler of a subclass: either
it returns normally or it raises with a message; in both cases it may have
performed pushes before finishing. -/
inductive HandlerResult
  | ok (pushes : List Push)
  | err (pushes : List Push) (msg : String)

/-- A user-defined frame handler. -/
abbrev Handler := FrameKind → HandlerResult

/-- `FrameProcessor.queueFrame`: system frames go to the priority queue,
all other frames to the data/control queue. -/
def queueFrame (s : ProcState) (f : Frame) : ProcState :=
  if isSystemFrame f.kind then { s with systemQueue := s.systemQueue ++ [f] }
  else { s with dataQueue := s.dataQueue ++ [f] }

/-- `FrameProcessor.pushError`: synthesize an error frame (default
`fatal = false`) and push it downstream. -/
def pushError (msg : String) (fatal : Bool := false) : Push :=
  (FrameKind.error msg fatal, Direction.downstream)

/-- The built-in frame kinds intercepted by `processFrameInternal` before the
user handler (start, cancel, stop, interruption, pause, resume, end). -/
def isBuiltinKind : FrameKind → Bool
  | .start _ => true
  | .cancel _ => true
  | .stop => true
  | .interruption => true
  | .pauseProc _ => true
  | .resumeProc _ => true
  | .endF => true
  | _ => false

/-- Metrics increment helpers used by `processFrameInternal`. -/
def Metrics.incFrames (m : Metrics) : Metrics :=
  { m with framesProcessed := m.framesProcessed + 1 }

def Metrics.incSystem (m : Metrics) : Metrics :=
  { m with systemFramesProcessed := m.systemFramesProcessed + 1 }

def Metrics.incData (m : Metrics) : Metrics :=
  { m with dataFramesProcessed := m.dataFramesProcessed + 1 }

def Metrics.incControl (m : Metrics) : Metrics :=
  { m with controlFramesProcessed := m.controlFramesProcessed + 1 }

def Metrics.incErrors (m : Metrics) : Metrics :=
  { m with errorsEncountered := m.errorsEncountered + 1 }

/-- Category-based counter update for frames that reach the user handler. -/
def Metrics.incCategory (m : Metrics) (c : FrameCategory) : Metrics :=
  match c with
  | .system => m.incSystem
  | .data => m.incData
  | .control => m.incControl

/-- `FrameProcessor.processFrameInternal`: built-in dispatch for system
frames and the end frame, then the user handler with its try/catch that
counts the error and pushes a non-fatal error frame downstream.  Returns the
updated processor state together with the pushes performed, in order. -/
def processFrameInternal (h : Handler) (s : ProcState) (f : Frame) :
    ProcState × List Push :=
  let s := { s with metrics := s.metrics.incFrames }
  match f.kind with
  | .start allow =>
      ({ s with metrics := s.metrics.incSystem, allowInterruptions := allow },
       [(f.kind, .downstream)])
  | .cancel _ =>
      let s := { s with metrics := s.metrics.incSystem }
      let s := if s.allowInterruptions then { s with dataQueue := [] } else s
      (s, [(f.kind, .downstream)])
  | .stop =>
      ({ s with metrics := s.metrics.incSystem, shouldStop := true },
       [(f.kind, .downstream)])
  | .interruption =>
      let s := { s with metrics := s.metrics.incSystem }
      let s := if s.allowInterruptions then { s with dataQueue := [] } else s
      (s, [(f.kind, .downstream)])
  | .pauseProc pid =>
      let s := { s with metrics := s.metrics.incSystem }
      let s := if pid = s.procId ∨ pid = s.procName then { s with paused := true } else s
      (s, [(f.kind, .downstream)])
  | .resumeProc pid =>
      let s := { s with metrics := s.metrics.incSystem }
      let s := if pid = s.procId ∨ pid = s.procName then { s with paused := false } else s
      (s, [(f.kind, .downstream)])
  | .endF =>
      ({ s with metrics := s.metrics.incControl }, [(f.kind, .downstream)])
  | k =>
      let s := { s with metrics := s.metrics.incCategory k.category }
      match h k with
      | .ok pushes => (s, pushes)
      | .err pushes msg =>
          ({ s with metrics := s.metrics.incErrors },
           pushes ++ [pushError msg])

/-- One iteration of `FrameProcessor.processLoop`: while the stop flag is
unset, dequeue from the priority queue if non-empty; otherwise, if not paused
and the data/control queue is non-empty, dequeue from it; otherwise sleep.
Returns the new state, the frame processed this iteration (if any) and the
pushes performed. -/
def processLoopIter (h : Handler) (s : ProcState) :
    ProcState × Option Frame × List Push :=
  if s.shouldStop then (s, none, [])
  else
    match s.systemQueue with
    | f :: rest =>
        let (s', ps) := processFrameInternal h { s with systemQueue := rest } f
        (s', some f, ps)
    | [] =>
        if s.paused then (s, none, [])
        else
          match s.dataQueue with
          | f :: rest =>
              let (s', ps) := processFrameInternal h { s with dataQueue := rest } f
              (s', some f, ps)
          | [] => (s, none, [])

/-- An externally observable event at a processor: a frame being enqueued
(by a neighbor's push or by external code) or one scheduler iteration. -/
inductive Event
  | enqueue (f : Frame)
  | iterate

/-- Ids of the frames enqueued by a list of events. -/
def eventIds (evs : List Event) : List Nat :=
  evs.filterMap fun e =>
    match e with
    | .enqueue f => some f.id
    | .iterate => none

/-- Run a processor over a list of events, accumulating the frames processed
by the scheduler loop in order. -/
def runEvents (h : Handler) : ProcState → List Event → List Frame →
    ProcState × List Frame
  | s, [], out => (s, out)
  | s, .enqueue f :: evs, out => runEvents h (queueFrame s f) evs out
  | s, .iterate :: evs, out =>
      let (s', pf, _) := processLoopIter h s
      runEvents h s' evs (out ++ pf.toList)

/-- All frame ids present in the initial queues or enqueued by the events;
the hypothesis that these are pairwise distinct reflects the strictly
increasing global frame-id counter of `frames/base.ts`. -/
def runIds (s : ProcState) (evs : List Event) : List Nat :=
  s.systemQueue.map Frame.id ++ s.dataQueue.map Frame.id ++ eventIds evs

/-- `String.prototype.trim`: strip whitespace from both ends, modelled
structurally on the character list so that it evaluates by `decide`. -/
def jsTrim (s : String) : String :=
  ⟨((s.data.dropWhile Char.isWhitespace).reverse.dropWhile Char.isWhitespace).reverse⟩

/-! ### LLM stage (`services/llm/base.ts`) -/

/-- Result returned by an LLM adapter (`LLMResult`).  The `usage` field is
not read by the base-class logic and is omitted. -/
structure LLMResult where
  text : String
  functionCalls : List FunctionCallInfo := []
deriving DecidableEq, Repr

/-- The state of an `LLMService` processor. -/
structure LLMState where
  context : List ChatMessage := []
  systemPrompt : Option String := none
  skipTts : Bool := false
  tools : List LLMTool := []
  toolChoice : ToolChoice := .auto
deriving DecidableEq, Repr

/-- The `LLMService` constructor: initialize the context with the system
prompt when one is configured. -/
def LLMState.init (systemPrompt : Option String := none) (skipTts : Bool := false) :
    LLMState :=
  { context :=
      match systemPrompt with
      | some p => [{ role := "system", content := p }]
      | none => []
    systemPrompt := systemPrompt
    skipTts := skipTts }

/-- An LLM adapter (`runLLM`): given the conversation, either a result or a
raised exception message. -/
abbrev LLMAdapter := List ChatMessage → Except String LLMResult

/-- `LLMService.generateResponse`: push a response-start frame, run the
adapter, push function-call frames then (if the text is non-empty) record the
assistant message and push a text frame, and — in a `finally` block — push
the response-end frame even when the adapter raised.  Returns the new state,
the pushes (all downstream) and the propagated exception, if any. -/
def generateResponse (runLLM : LLMAdapter) (s : LLMState) :
    LLMState × List FrameKind × Option String :=
  let startF := FrameKind.llmResponseStart s.skipTts
  let endFr := FrameKind.llmResponseEnd s.skipTts
  match runLLM s.context with
  | .error e => (s, [startF, endFr], some e)
  | .ok r =>
      let fcFrames := r.functionCalls.map fun c =>
        FrameKind.functionCall c.callId c.name c.arguments
      if r.text.length > 0 then
        ({ s with context := s.context ++ [{ role := "assistant", content := r.text }] },
         startF :: (fcFrames ++ [FrameKind.text r.text s.skipTts, endFr]), none)
      else
        (s, startF :: (fcFrames ++ [endFr]), none)

/-- `LLMService.processFrame`: frame dispatch of the LLM stage.  Returns the
new state, the pushes (all downstream) and the propagated exception, if
any. -/
def llmProcessFrame (runLLM : LLMAdapter) (s : LLMState) (k : FrameKind) :
    LLMState × List FrameKind × Option String :=
  match k with
  | .transcription t _ _ _ _ =>
      if (jsTrim t).length = 0 then (s, [], none)
      else
        let s := { s with context := s.context ++ [{ role := "user", content := t }] }
        let (s', outs, exc) := generateResponse runLLM s
        (s', k :: outs, exc)
  | .llmMessagesAppend msgs runLlm =>
      let s := { s with context := s.context ++ msgs }
      if runLlm then generateResponse runLLM s else (s, [], none)
  | .llmMessagesUpdate msgs runLlm =>
      let s :=
        if s.systemPrompt.isSome ∧ ¬ msgs.any (fun m => m.role == "system") then
          { s with context :=
              { role := "system", content := s.systemPrompt.getD "" } :: msgs }
        else { s with context := msgs }
      if runLlm then generateResponse runLLM s else (s, [], none)
  | .llmRun => generateResponse runLLM s
  | .llmSetTools ts => ({ s with tools := ts }, [], none)
  | .llmSetToolChoice c => ({ s with toolChoice := c }, [], none)
  | .llmConfigureOutput b => ({ s with skipTts := b }, [], none)
  | .functionCallResult _ functionName result =>
      let s := { s with context := s.context ++
        [{ role := "function", name := some functionName,
           content := result.stringify }] }
      generateResponse runLLM s
  | _ => (s, [k], none)

/-- Bool test: is this frame an LLM response-start frame? -/
def isLLMResponseStartK : FrameKind → Bool
  | .llmResponseStart _ => true
  | _ => false

/-- Bool test: is this frame an LLM response-end frame? -/
def isLLMResponseEndK : FrameKind → Bool
  | .llmResponseEnd _ => true
  | _ => false

/-! ### TTS stage (`services/tts/base.ts`) -/

/-- Result returned by a TTS adapter (`TTSResult`). -/
structure TTSResult where
  audio : List Nat
  sampleRate : Nat
  numChannels : Nat
deriving DecidableEq, Repr

/-- A TTS adapter (`runTTS`). -/
abbrev TTSAdapter := String → Except String TTSResult

/-- `TTSService.processFrame`: transcriptions pass through; text frames with
`skipTts` pass through; empty text (after trimming) is dropped; otherwise a
TTS-started frame is pushed, the adapter runs, on success a TTS-audio frame
with the adapter's fields is pushed, and — in a `finally` block — the
TTS-stopped frame is pushed even when the adapter raised.  Returns the pushes
(all downstream) and the propagated exception, if any. -/
def ttsProcessFrame (runTTS : TTSAdapter) (k : FrameKind) :
    List FrameKind × Option String :=
  match k with
  | .transcription _ _ _ _ _ => ([k], none)
  | .interimTranscription _ _ _ _ => ([k], none)
  | .text t skipTts =>
      if skipTts then ([k], none)
      else if (jsTrim t).length = 0 then ([], none)
      else
        match runTTS t with
        | .ok r =>
            ([.ttsStarted, .ttsAudio r.audio r.sampleRate r.numChannels, .ttsStopped],
             none)
        | .error e => ([.ttsStarted, .ttsStopped], some e)
  | _ => ([k], none)

/-- Bool test: is this frame a TTS-started frame? -/
def isTTSStartedK : FrameKind → Bool
  | .ttsStarted => true
  | _ => false

/-- Bool test: is this frame a TTS-stopped frame? -/
def isTTSStoppedK : FrameKind → Bool
  | .ttsStopped => true
  | _ => false

/-! ### STT stage (`services/stt/base.ts`) -/

/-- A transcription result delivered to the STT stage (`STTResult`).  The
optional `interim` flag of the source is a truthiness test; it is modelled as
a `Bool` defaulting to `false`. -/
structure STTResult where
  text : String
  language : Option String := none
  raw : Option Json := none
  interim : Bool := false
  userId : Option String := none
  timestamp : Option String := none
deriving DecidableEq, Repr

/-- Configuration of an `STTService` (`defaultUserId`, `defaultLanguage`). -/
structure STTConfig where
  defaultUserId : String := "unknown"
  defaultLanguage : Option String := none
deriving DecidableEq, Repr

/-- `STTService.pushTranscriptionResult`: apply the user-id, timestamp and
language defaults (`now` models `new Date().toISOString()`), then push one
interim transcription frame if `interim` is set, else one final transcription
frame.  Returns the pushes (all downstream). -/
def pushTranscriptionResult (cfg : STTConfig) (now : String) (r : STTResult) :
    List FrameKind :=
  let userId := r.userId.getD cfg.defaultUserId
  let timestamp := r.timestamp.getD now
  let language := if r.language.isSome then r.language else cfg.defaultLanguage
  if r.interim then
    [.interimTranscription r.text userId timestamp r.raw]
  else
    [.transcription r.text userId timestamp language r.raw]

/-! ### Audio-batching stage (`processors/audioBuffer.ts`, pre-roll variant) -/

/-- Configuration of an `AudioBufferProcessor`. -/
structure AudioBufferConfig where
  sampleRate : Nat := 16000
  numChannels : Nat := 1
  preRollFrames : Nat := 5
deriving DecidableEq, Repr

/-- State of an `AudioBufferProcessor`: the main utterance buffer, the
pre-roll ring buffer, and the speaking flag. -/
structure AudioBufferState where
  audioBuffer : List (List Nat) := []
  preRollBuffer : List (List Nat) := []
  isUserSpeaking : Bool := false
deriving DecidableEq, Repr

/-- `AudioBufferProcessor.processFrame`: on user-started-speaking, move the
pre-roll into the main buffer and forward the frame; on user-stopped-speaking,
emit one concatenated input-audio frame (when the buffer is non-empty) and
then forward the frame; input-audio frames are buffered (or pre-rolled) and
not forwarded; other frames pass through. -/
def audioBufferProcessFrame (cfg : AudioBufferConfig) (s : AudioBufferState)
    (k : FrameKind) : AudioBufferState × List FrameKind :=
  match k with
  | .userStartedSpeaking =>
      ({ s with isUserSpeaking := true, audioBuffer := s.preRollBuffer,
                preRollBuffer := [] }, [k])
  | .userStoppedSpeaking =>
      let outs :=
        if s.audioBuffer.length > 0 then
          [FrameKind.inputAudio s.audioBuffer.flatten cfg.sampleRate cfg.numChannels, k]
        else [k]
      ({ s with isUserSpeaking := false, audioBuffer := [] }, outs)
  | .inputAudio a _ _ =>
      if s.isUserSpeaking then
        ({ s with audioBuffer := s.audioBuffer ++ [a] }, [])
      else
        let prb := s.preRollBuffer ++ [a]
        let prb := if prb.length > cfg.preRollFrames then prb.drop 1 else prb
        ({ s with preRollBuffer := prb }, [])
  | _ => (s, [k])

/-- Run the audio-batching stage over a list of frames, accumulating
outputs. -/
def runAudioBuffer (cfg : AudioBufferConfig) :
    AudioBufferState → List FrameKind → AudioBufferState × List FrameKind
  | s, [] => (s, [])
  | s, k :: ks =>
      let (s', outs) := audioBufferProcessFrame cfg s k
      let (s'', rest) := runAudioBuffer cfg s' ks
      (s'', outs ++ rest)

/-! ### Voice-activity detection (`SimpleVADProcessor.detectSpeech` /
`BaseInputTransport.calculateVolume`) -/

/-- Decode one 16-bit little-endian sample:
`(audio[i] | (audio[i+1] << 8)) - (audio[i+1] & 0x80 ? 0x10000 : 0)`. -/
def byteToSample (b0 b1 : Nat) : Int :=
  (Int.ofNat (b0 ||| (b1 <<< 8))) - (if b1 &&& 0x80 ≠ 0 then 0x10000 else 0)

/-- Decode the byte buffer into samples, two bytes at a time.  For an
odd-length buffer the source reads one byte past the end: `undefined`
coerces to `0` in the arithmetic, so the last sample is the raw last byte. -/
def decodeSamples : List Nat → List Int
  | [] => []
  | [b] => [Int.ofNat b]
  | b0 :: b1 :: rest => byteToSample b0 b1 :: decodeSamples rest

/-- The mean of the squared normalized samples, exactly as accumulated by
`calculateVolume` (which then returns its square root): buffers shorter than
two bytes give volume 0, and the divisor is `floor(length / 2)` even when an
odd-length buffer contributes one extra term. -/
def volumeSq (audio : List Nat) : ℚ :=
  if audio.length < 2 then 0
  else ((decodeSamples audio).map fun (s : ℤ) => ((s : ℚ) / 32768) ^ 2).sum
       / ((audio.length / 2 : ℕ) : ℚ)

/-- `detectSpeech`: the source compares `Math.sqrt(volumeSq audio)` with the
threshold; for a nonnegative threshold (the configured range is 0–1) this is
equivalent to the square-free comparison used here. -/
def detectSpeech (audio : List Nat) (threshold : ℚ) : Bool :=
  decide (threshold * threshold < volumeSq audio)

/-! ### Helper lemmas about the processor runtime -/

/-- `processFrameInternal` never touches the priority queue: built-in
handlers only clear the data/control queue. -/
theorem processFrameInternal_systemQueue (h : Handler) (s : ProcState) (f : Frame) :
    (processFrameInternal h s f).1.systemQueue = s.systemQueue := by
  rcases f with ⟨i, k⟩
  cases k <;>
    simp only [processFrameInternal] <;>
    (try split) <;>
    (try split) <;>
    rfl

/-- C2: processing a cancel frame or an interruption frame empties the
data/control queue exactly when interruptions are allowed (leaving it
unchanged otherwise), forwards the frame downstream as the only push, and
never removes anything from the priority queue. -/
theorem cancel_interruption_clear_c2 :
    ∀ (h : Handler) (s : ProcState) (i : Nat) (r : Option String),
      (processFrameInternal h s ⟨i, .cancel r⟩).1.dataQueue
          = (if s.allowInterruptions then [] else s.dataQueue)
      ∧ (processFrameInternal h s ⟨i, .cancel r⟩).1.systemQueue = s.systemQueue
      ∧ (processFrameInternal h s ⟨i, .cancel r⟩).2 = [(.cancel r, .downstream)]
      ∧ (processFrameInternal h s ⟨i, .interruption⟩).1.dataQueue
          = (if s.allowInterruptions then [] else s.dataQueue)
      ∧ (processFrameInternal h s ⟨i, .interruption⟩).1.systemQueue = s.systemQueue
      ∧ (processFrameInternal h s ⟨i, .interruption⟩).2
          = [(.interruption, .downstream)] := by
  intro h s i r
  by_cases ha : s.allowInterruptions <;>
    simp [processFrameInternal, ha]

/-- C3: when the user handler raises, the runtime increments the error
counter, appends exactly one non-fatal error frame carrying the message to
the handler's own pushes, and leaves the stop flag unchanged, so the
scheduling loop keeps running. -/
theorem handler_exception_recovery_c3 :
    ∀ (h : Handler) (s : ProcState) (f : Frame) (ps : List Push) (msg : String),
      isBuiltinKind f.kind = false →
      h f.kind = .err ps msg →
      (processFrameInternal h s f).1.metrics.errorsEncountered
          = s.metrics.errorsEncountered + 1
      ∧ (processFrameInternal h s f).2 = ps ++ [(.error msg false, .downstream)]
      ∧ (processFrameInternal h s f).1.shouldStop = s.shouldStop := by
  intro h s f ps msg hb hh
  rcases f with ⟨i, k⟩
  cases k <;> simp only [isBuiltinKind, Bool.true_eq_false] at hb <;>
    simp [processFrameInternal, hh, pushError, Metrics.incCategory,
      Metrics.incFrames, Metrics.incSystem, Metrics.incData, Metrics.incControl,
      Metrics.incErrors, FrameKind.category]

/-- Witness for `handler_exception_recovery_c3` at a concrete data frame and
an always-raising handler. -/
theorem handler_exception_recovery_c3_witness :
    isBuiltinKind (FrameKind.genericData 0) = false
    ∧ ((processFrameInternal (fun _ => .err [] "boom") {} ⟨7, .genericData 0⟩).1.metrics.errorsEncountered
          = (ProcState.metrics {}).errorsEncountered + 1
       ∧ (processFrameInternal (fun _ => .err [] "boom") {} ⟨7, .genericData 0⟩).2
          = [] ++ [(.error "boom" false, .downstream)]
       ∧ (processFrameInternal (fun _ => .err [] "boom") {} ⟨7, .genericData 0⟩).1.shouldStop
          = ProcState.shouldStop {}) :=
  ⟨by decide,
   handler_exception_recovery_c3 (fun _ => .err [] "boom") {} ⟨7, .genericData 0⟩
     [] "boom" (by decide) rfl⟩

/-- C10: error frames synthesized by `pushError` are System frames; queueing
one at a neighbor appends it to the neighbor's priority queue; and when the
neighbor's priority queue is empty, the very next loop iteration processes
the error frame, ahead of every data/control frame queued earlier. -/
theorem pushError_priority_c10 :
    (∀ (msg : String) (fatal : Bool), (pushError msg fatal).1.category = .system)
    ∧ (∀ (s : ProcState) (i : Nat) (msg : String) (fatal : Bool),
        queueFrame s ⟨i, .error msg fatal⟩
          = { s with systemQueue := s.systemQueue ++ [⟨i, .error msg fatal⟩] })
    ∧ (∀ (h : Handler) (s : ProcState) (i : Nat) (msg : String),
        s.shouldStop = false → s.systemQueue = [] →
        (processLoopIter h (queueFrame s ⟨i, .error msg false⟩)).2.1
          = some ⟨i, .error msg false⟩) := by
  refine ⟨fun msg fatal => rfl, fun s i msg fatal => ?_, ?_⟩
  · simp [queueFrame, isSystemFrame, FrameKind.category]
  · intro h s i msg hstop hsys
    simp [queueFrame, isSystemFrame, FrameKind.category, processLoopIter,
      hstop, hsys]

/-- Witness for `pushError_priority_c10`: with a data frame already queued,
the freshly queued error frame is the next frame processed. -/
theorem pushError_priority_c10_witness :
    (ProcState.shouldStop { dataQueue := [⟨1, .genericData 0⟩] } = false
     ∧ ProcState.systemQueue { dataQueue := [⟨1, .genericData 0⟩] } = [])
    ∧ (processLoopIter (fun _ => .ok [])
        (queueFrame { dataQueue := [⟨1, .genericData 0⟩] } ⟨2, .error "oops" false⟩)).2.1
        = some ⟨2, .error "oops" false⟩ :=
  ⟨⟨rfl, rfl⟩,
   pushError_priority_c10.2.2 (fun _ => .ok []) { dataQueue := [⟨1, .genericData 0⟩] }
     2 "oops" rfl rfl⟩

/-- Unfolding lemma: one `iterate` event runs one scheduler iteration and
records the processed frame, if any. -/
theorem runEvents_iterate (h : Handler) (s : ProcState) (evs : List Event)
    (out : List Frame) :
    runEvents h s (.iterate :: evs) out
      = runEvents h (processLoopIter h s).1 evs
          (out ++ (processLoopIter h s).2.1.toList) := rfl

/-- The invariant behind the C1 ordering property: either the watched system
frame `S` is still in the priority queue and the watched data/control frame
`D` has not been processed (nor can it reappear from the priority queue or
the remaining enqueue events), or `S` has already been processed and every
processing of `D` lands after it. -/
def OrderInv (S D : Frame) (s : ProcState) (evs : List Event)
    (out : List Frame) : Prop :=
  (S ∈ s.systemQueue ∧ D.id ∉ out.map Frame.id
     ∧ D.id ∉ s.systemQueue.map Frame.id ∧ D.id ∉ eventIds evs)
  ∨ (List.Sublist [S.id] (out.map Frame.id)
     ∧ (D.id ∈ out.map Frame.id → List.Sublist [S.id, D.id] (out.map Frame.id)))

/-- The second disjunct of `OrderInv` is stable under recording one more
processed frame. -/
theorem orderInvB_append (S D : Frame) (out : List Frame) (f : Frame)
    (h1 : List.Sublist [S.id] (out.map Frame.id))
    (h2 : D.id ∈ out.map Frame.id →
      List.Sublist [S.id, D.id] (out.map Frame.id)) :
    List.Sublist [S.id] ((out ++ [f]).map Frame.id)
    ∧ (D.id ∈ (out ++ [f]).map Frame.id →
        List.Sublist [S.id, D.id] ((out ++ [f]).map Frame.id)) := by
  simp only [List.map_append, List.map_cons, List.map_nil]
  constructor
  · exact h1.trans (List.sublist_append_left _ _)
  · intro hm
    rcases List.mem_append.1 hm with hm | hm
    · exact (h2 hm).trans (List.sublist_append_left _ _)
    · have hfD : f.id = D.id := (List.mem_singleton.1 hm).symm
      have hs : List.Sublist ([S.id] ++ [D.id]) (out.map Frame.id ++ [f.id]) :=
        List.Sublist.append h1 (by simp [hfD])
      simpa using hs

/-- Core ordering lemma for C1: starting from any state satisfying
`OrderInv`, along any sequence of enqueue/iterate events, if `D` ever gets
processed then `S` was processed strictly earlier. -/
theorem runEvents_system_first (h : Handler) (S D : Frame) (hSD : S.id ≠ D.id) :
    ∀ (evs : List Event) (s : ProcState) (out : List Frame),
      OrderInv S D s evs out →
      D.id ∈ ((runEvents h s evs out).2.map Frame.id) →
      List.Sublist [S.id, D.id] ((runEvents h s evs out).2.map Frame.id)
  | [], s, out => by
    intro hinv hmem
    simp only [runEvents] at hmem ⊢
    rcases hinv with ⟨_, hDout, _, _⟩ | ⟨_, hB⟩
    · exact absurd hmem hDout
    · exact hB hmem
  | .enqueue f :: evs, s, out => by
    intro hinv hmem
    simp only [runEvents] at hmem ⊢
    refine runEvents_system_first h S D hSD evs (queueFrame s f) out ?_ hmem
    rcases hinv with ⟨hS, hDout, hDsys, hDev⟩ | hB
    · left
      have hcons : eventIds (Event.enqueue f :: evs) = f.id :: eventIds evs := by
        simp [eventIds]
      rw [hcons] at hDev
      have hfD : D.id ≠ f.id := List.ne_of_not_mem_cons hDev
      have hDev2 : D.id ∉ eventIds evs := List.not_mem_of_not_mem_cons hDev
      refine ⟨?_, hDout, ?_, hDev2⟩
      · unfold queueFrame
        split <;> simp [hS, List.mem_append]
      · unfold queueFrame
        split <;> simp_all [List.mem_append]
    · right
      exact hB
  | .iterate :: evs, s, out => by
    intro hinv hmem
    rw [runEvents_iterate] at hmem ⊢
    refine runEvents_system_first h S D hSD evs _ _ ?_ hmem
    have hev : eventIds (Event.iterate :: evs) = eventIds evs := by
      simp [eventIds]
    rcases hinv with ⟨hS, hDout, hDsys, hDev⟩ | ⟨hB1, hB2⟩
    · rw [hev] at hDev
      by_cases hss : s.shouldStop
      · simp only [processLoopIter, hss, if_true]
        left
        exact ⟨hS, by simpa using hDout, hDsys, hDev⟩
      · rcases hq : s.systemQueue with _ | ⟨f, rest⟩
        · rw [hq] at hS
          exact absurd hS (List.not_mem_nil S)
        · have hs1 : (processLoopIter h s).1
              = (processFrameInternal h { s with systemQueue := rest } f).1 := by
            simp [processLoopIter, hss, hq]
          have hpf : (processLoopIter h s).2.1 = some f := by
            simp [processLoopIter, hss, hq]
          rw [hs1, hpf]
          have hfD : D.id ≠ f.id := by
            intro hc
            exact hDsys (by simp [hq, hc])
          by_cases hfS : f.id = S.id
          · right
            simp only [Option.toList_some, List.map_append, List.map_cons,
              List.map_nil]
            constructor
            · rw [← hfS]
              exact List.sublist_append_right _ _
            · intro hm
              rcases List.mem_append.1 hm with hm | hm
              · exact absurd hm hDout
              · have : D.id = f.id := by simpa using hm
                exact absurd this hfD
          · left
            have hSrest : S ∈ rest := by
              rw [hq] at hS
              rcases List.mem_cons.1 hS with h1 | h1
              · exact absurd (congrArg Frame.id h1).symm hfS
              · exact h1
            refine ⟨?_, ?_, ?_, hDev⟩
            · rw [processFrameInternal_systemQueue]
              exact hSrest
            · simp only [Option.toList_some, List.map_append, List.map_cons,
                List.map_nil]
              simp [hDout, hfD]
            · rw [processFrameInternal_systemQueue]
              intro hc
              refine hDsys ?_
              rw [hq]
              simp only [List.map_cons, List.mem_cons]
              exact Or.inr hc
    · rcases hpfo : (processLoopIter h s).2.1 with _ | f
      · rw [show out ++ (Option.toList (none : Option Frame)) = out from by simp]
        exact Or.inr ⟨hB1, hB2⟩
      · rw [show out ++ (Option.toList (some f)) = out ++ [f] from by simp]
        exact Or.inr (orderInvB_append S D out f hB1 hB2)

/-- C1: each scheduler iteration dequeues from the priority queue whenever it
is non-empty; it dequeues from the data/control queue only when the priority
queue is empty and the processor is not paused (never while paused);
consequently, whenever a System frame `S` and a Data/Control frame `D` are
pending at the same processor, `S` is processed strictly before `D` along any
continuation of the run (frame ids being globally unique). -/
theorem scheduler_priority_c1 :
    (∀ (h : Handler) (s : ProcState) (f : Frame) (rest : List Frame),
        s.shouldStop = false → s.systemQueue = f :: rest →
        (processLoopIter h s).2.1 = some f
        ∧ (processLoopIter h s).1.systemQueue = rest)
    ∧ (∀ (h : Handler) (s : ProcState) (f : Frame) (rest : List Frame),
        s.shouldStop = false → s.systemQueue = [] → s.paused = false →
        s.dataQueue = f :: rest → (processLoopIter h s).2.1 = some f)
    ∧ (∀ (h : Handler) (s : ProcState),
        s.systemQueue = [] → s.paused = true →
        (processLoopIter h s).2.1 = none)
    ∧ (∀ (h : Handler) (s : ProcState) (evs : List Event) (S D : Frame),
        S ∈ s.systemQueue → D ∈ s.dataQueue → (runIds s evs).Nodup →
        D.id ∈ ((runEvents h s evs []).2.map Frame.id) →
        List.Sublist [S.id, D.id] ((runEvents h s evs []).2.map Frame.id)) := by
  refine ⟨?_, ?_, ?_, ?_⟩
  · intro h s f rest hss hq
    constructor
    · simp [processLoopIter, hss, hq]
    · simp [processLoopIter, hss, hq, processFrameInternal_systemQueue]
  · intro h s f rest hss hq hp hd
    simp [processLoopIter, hss, hq, hp, hd]
  · intro h s hq hp
    by_cases hss : s.shouldStop <;> simp [processLoopIter, hss, hq, hp]
  · intro h s evs S D hS hD hnd hmem
    have hSid : S.id ∈ s.systemQueue.map Frame.id := List.mem_map_of_mem _ hS
    have hDid : D.id ∈ s.dataQueue.map Frame.id := List.mem_map_of_mem _ hD
    rw [runIds, List.nodup_append] at hnd
    obtain ⟨hnd1, -, hdisj⟩ := hnd
    rw [List.nodup_append] at hnd1
    obtain ⟨-, -, hdisj1⟩ := hnd1
    have hSD : S.id ≠ D.id := by
      intro hc
      exact hdisj1 hSid (hc ▸ hDid)
    have hDsys : D.id ∉ s.systemQueue.map Frame.id := by
      intro hc
      exact hdisj1 hc hDid
    have hDev : D.id ∉ eventIds evs := fun hc =>
      hdisj (List.mem_append_right _ hDid) hc
    exact runEvents_system_first h S D hSD evs s []
      (Or.inl ⟨hS, by simp, hDsys, hDev⟩) hmem

/-- Concrete System frame for the `scheduler_priority_c1` witness. -/
def c1SysFrame : Frame := ⟨1, .metrics "m"⟩

/-- Concrete data frame for the `scheduler_priority_c1` witness. -/
def c1DataFrame : Frame := ⟨2, .genericData 0⟩

/-- Concrete processor state for the `scheduler_priority_c1` witness. -/
def c1State : ProcState := { systemQueue := [c1SysFrame], dataQueue := [c1DataFrame] }

/-- Witness for `scheduler_priority_c1`: a metrics (System) frame and a data
frame co-pending; after two iterations the processed order is system frame
first, data frame second. -/
theorem scheduler_priority_c1_witness :
    (c1SysFrame ∈ c1State.systemQueue
     ∧ c1DataFrame ∈ c1State.dataQueue
     ∧ (runIds c1State [.iterate, .iterate]).Nodup
     ∧ c1DataFrame.id ∈ ((runEvents (fun _ => .ok []) c1State
          [.iterate, .iterate] []).2.map Frame.id))
    ∧ List.Sublist [c1SysFrame.id, c1DataFrame.id]
        ((runEvents (fun _ => .ok []) c1State [.iterate, .iterate] []).2.map Frame.id) :=
  ⟨⟨by decide, by decide, by decide, by decide⟩,
   scheduler_priority_c1.2.2.2 (fun _ => .ok []) c1State [.iterate, .iterate]
     c1SysFrame c1DataFrame (by decide) (by decide) (by decide) (by decide)⟩

/-! ### Theorems about the LLM stage -/

/-- C4 (failing-input evaluation): processing
`FunctionCallResultFrame(callId = "c1", name = "w", value = (temp: 72))`
appends a function-role message whose `name` is the function name `"w"` —
not the call id `"c1"` as the specification states — with the JSON
serialization of the value as content, after which generation runs and
appends the assistant reply. -/
theorem llm_functionCallResult_name_c4 :
    ((llmProcessFrame (fun _ => .ok { text := "Sunny." }) (LLMState.init none)
        (.functionCallResult "c1" "w"
          (.obj (.cons "temp" (.num 72) .nil)))).1.context.map ChatMessage.name
      = [some "w", none])
    ∧ ((llmProcessFrame (fun _ => .ok { text := "Sunny." }) (LLMState.init none)
        (.functionCallResult "c1" "w"
          (.obj (.cons "temp" (.num 72) .nil)))).1.context.map ChatMessage.role
      = ["function", "assistant"])
    ∧ ((llmProcessFrame (fun _ => .ok { text := "Sunny." }) (LLMState.init none)
        (.functionCallResult "c1" "w"
          (.obj (.cons "temp" (.num 72) .nil)))).1.context.map ChatMessage.content
      = ["\x7b\"temp\":72\x7d", "Sunny."])
    ∧ (some "w" ≠ (some "c1" : Option String)) :=
  ⟨rfl, rfl, rfl, by decide⟩

/-- C5: every invocation of `generateResponse` emits the response-start frame
first and the response-end frame last, with no other start/end frame in
between — also when the adapter raises, in which case the output is exactly
the start/end pair and the exception propagates.  Hence exactly one start and
one end are emitted on every invocation. -/
theorem llm_generate_start_end_c5 :
    ∀ (runLLM : LLMAdapter) (s : LLMState),
      (∃ mid, (generateResponse runLLM s).2.1
          = .llmResponseStart s.skipTts :: (mid ++ [.llmResponseEnd s.skipTts])
        ∧ ∀ k ∈ mid, isLLMResponseStartK k = false ∧ isLLMResponseEndK k = false)
      ∧ ((generateResponse runLLM s).2.1.countP isLLMResponseStartK = 1
         ∧ (generateResponse runLLM s).2.1.countP isLLMResponseEndK = 1)
      ∧ (∀ e, runLLM s.context = .error e →
          (generateResponse runLLM s).2.1
            = [.llmResponseStart s.skipTts, .llmResponseEnd s.skipTts]
          ∧ (generateResponse runLLM s).2.2 = some e) := by
  intro runLLM s
  have main :
      ∃ mid, (generateResponse runLLM s).2.1
          = .llmResponseStart s.skipTts :: (mid ++ [.llmResponseEnd s.skipTts])
        ∧ ∀ k ∈ mid, isLLMResponseStartK k = false ∧ isLLMResponseEndK k = false := by
    unfold generateResponse
    rcases hr : runLLM s.context with e | r
    · exact ⟨[], rfl, by simp⟩
    · by_cases ht : r.text.length > 0
      · refine ⟨(r.functionCalls.map fun c =>
            FrameKind.functionCall c.callId c.name c.arguments)
              ++ [.text r.text s.skipTts], by simp [ht], ?_⟩
        intro k hk
        rcases List.mem_append.1 hk with hk | hk
        · obtain ⟨c, -, rfl⟩ := List.mem_map.1 hk
          exact ⟨rfl, rfl⟩
        · rw [List.mem_singleton.1 hk]
          exact ⟨rfl, rfl⟩
      · refine ⟨r.functionCalls.map fun c =>
            FrameKind.functionCall c.callId c.name c.arguments, by simp [ht], ?_⟩
        intro k hk
        obtain ⟨c, -, rfl⟩ := List.mem_map.1 hk
        exact ⟨rfl, rfl⟩
  obtain ⟨mid, hmid, hfree⟩ := main
  refine ⟨⟨mid, hmid, hfree⟩, ?_, ?_⟩
  · have hzS : mid.countP isLLMResponseStartK = 0 :=
      List.countP_eq_zero.2 fun k hk => by simp [(hfree k hk).1]
    have hzE : mid.countP isLLMResponseEndK = 0 :=
      List.countP_eq_zero.2 fun k hk => by simp [(hfree k hk).2]
    rw [hmid]
    constructor <;>
      simp [List.countP_cons, List.countP_append, hzS, hzE,
        isLLMResponseStartK, isLLMResponseEndK]
  · intro e he
    unfold generateResponse
    rw [he]
    exact ⟨rfl, rfl⟩

/-- Witness for `llm_generate_start_end_c5` with an adapter that raises:
the start/end pair is still emitted and the exception propagates. -/
theorem llm_generate_start_end_c5_witness :
    ((fun _ => Except.error "boom" : LLMAdapter) (LLMState.context {}) = .error "boom")
    ∧ (generateResponse (fun _ => .error "boom") {}).2.1
        = [.llmResponseStart false, .llmResponseEnd false]
    ∧ (generateResponse (fun _ => .error "boom") {}).2.2 = some "boom" :=
  ⟨rfl,
   ((llm_generate_start_end_c5 (fun _ => .error "boom") {}).2.2 "boom" rfl).1,
   ((llm_generate_start_end_c5 (fun _ => .error "boom") {}).2.2 "boom" rfl).2⟩

/-! ### Theorems about the TTS stage -/

/-- C6: for a text frame with non-empty trimmed text and `skipTts = false`,
the TTS stage pushes TTS-started, then on success exactly one TTS-audio frame
carrying the adapter's bytes, sample rate and channel count, then
TTS-stopped; when the adapter raises, TTS-stopped is still pushed (and the
exception propagates), so starts and stops always pair up. -/
theorem tts_start_stop_symmetric_c6 :
    ∀ (runTTS : TTSAdapter) (t : String),
      (jsTrim t).length ≠ 0 →
      ((∀ r, runTTS t = .ok r →
          ttsProcessFrame runTTS (.text t false)
            = ([.ttsStarted, .ttsAudio r.audio r.sampleRate r.numChannels,
                .ttsStopped], none))
       ∧ (∀ e, runTTS t = .error e →
          ttsProcessFrame runTTS (.text t false)
            = ([.ttsStarted, .ttsStopped], some e))
       ∧ ((ttsProcessFrame runTTS (.text t false)).1.countP isTTSStartedK
           = (ttsProcessFrame runTTS (.text t false)).1.countP isTTSStoppedK)) := by
  intro runTTS t ht
  refine ⟨?_, ?_, ?_⟩
  · intro r hr
    simp [ttsProcessFrame, ht, hr]
  · intro e he
    simp [ttsProcessFrame, ht, he]
  · rcases hr : runTTS t with e | r <;>
      simp [ttsProcessFrame, ht, hr, List.countP_cons, isTTSStartedK, isTTSStoppedK]

/-- Witness for `tts_start_stop_symmetric_c6` with a concrete text and a
stub adapter returning 24 kHz mono audio. -/
theorem tts_start_stop_symmetric_c6_witness :
    ((jsTrim "Hello world").length ≠ 0
     ∧ (fun _ => Except.ok ⟨[9, 9], 24000, 1⟩ : TTSAdapter) "Hello world"
        = .ok ⟨[9, 9], 24000, 1⟩)
    ∧ ttsProcessFrame (fun _ => .ok ⟨[9, 9], 24000, 1⟩) (.text "Hello world" false)
        = ([.ttsStarted, .ttsAudio [9, 9] 24000 1, .ttsStopped], none) :=
  ⟨⟨by decide, rfl⟩,
   (tts_start_stop_symmetric_c6 (fun _ => .ok ⟨[9, 9], 24000, 1⟩) "Hello world"
       (by decide)).1 ⟨[9, 9], 24000, 1⟩ rfl⟩

/-! ### Theorems about the STT stage -/

/-- C7 counterexample: the shared `pushTranscriptionResult` helper has no
empty-text check — a result whose text is empty still emits a transcription
frame (empty-text filtering lives in the adapters, e.g. the Deepgram
transcript handler, before this helper is called). -/
theorem pushTranscriptionResult_empty_c7_counterexample :
    pushTranscriptionResult {} "2026-01-01T00:00:00.000Z" { text := "" }
      = [.transcription "" "unknown" "2026-01-01T00:00:00.000Z" none none]
    ∧ pushTranscriptionResult {} "2026-01-01T00:00:00.000Z" { text := "" } ≠ [] :=
  ⟨rfl, by decide⟩

/-- C7 (amended): for every result delivered to `pushTranscriptionResult` —
including empty text — exactly one frame is emitted: an interim transcription
frame when `interim` is set, else a final transcription frame, with a missing
user id replaced by the configured default and a missing timestamp replaced
by the current wall time (and a missing language by the configured default,
on final frames). -/
theorem pushTranscriptionResult_c7 :
    ∀ (cfg : STTConfig) (now : String) (r : STTResult),
      (r.interim = true →
        pushTranscriptionResult cfg now r
          = [.interimTranscription r.text (r.userId.getD cfg.defaultUserId)
              (r.timestamp.getD now) r.raw])
      ∧ (r.interim = false →
        pushTranscriptionResult cfg now r
          = [.transcription r.text (r.userId.getD cfg.defaultUserId)
              (r.timestamp.getD now)
              (if r.language.isSome then r.language else cfg.defaultLanguage)
              r.raw]) := by
  intro cfg now r
  constructor <;> intro hi <;> simp [pushTranscriptionResult, hi]

/-- Witness for `pushTranscriptionResult_c7`: an interim result with no user
id and no timestamp gets the defaults. -/
theorem pushTranscriptionResult_c7_witness :
    (STTResult.interim { text := "par", interim := true } = true
     ∧ STTResult.interim { text := "hello", interim := false } = false)
    ∧ pushTranscriptionResult { defaultUserId := "user-123" } "2026-01-01T00:00:00.000Z"
        { text := "par", interim := true }
        = [.interimTranscription "par" "user-123" "2026-01-01T00:00:00.000Z" none]
    ∧ pushTranscriptionResult { defaultUserId := "user-123" } "2026-01-01T00:00:00.000Z"
        { text := "hello", interim := false }
        = [.transcription "hello" "user-123" "2026-01-01T00:00:00.000Z" none none] :=
  ⟨⟨rfl, rfl⟩,
   (pushTranscriptionResult_c7 { defaultUserId := "user-123" }
       "2026-01-01T00:00:00.000Z" { text := "par", interim := true }).1 rfl,
   (pushTranscriptionResult_c7 { defaultUserId := "user-123" }
       "2026-01-01T00:00:00.000Z" { text := "hello", interim := false }).2 rfl⟩

/-! ### Theorems about the audio-batching stage -/

/-- Running the batching stage over concatenated inputs runs them in
sequence and concatenates the outputs. -/
theorem runAudioBuffer_append (cfg : AudioBufferConfig) (l1 l2 : List FrameKind) :
    ∀ s : AudioBufferState,
      runAudioBuffer cfg s (l1 ++ l2)
        = ((runAudioBuffer cfg (runAudioBuffer cfg s l1).1 l2).1,
           (runAudioBuffer cfg s l1).2
             ++ (runAudioBuffer cfg (runAudioBuffer cfg s l1).1 l2).2) := by
  induction l1 with
  | nil => intro s; simp [runAudioBuffer]
  | cons k l1 ih =>
      intro s
      simp only [List.cons_append, runAudioBuffer, List.append_eq]
      rw [ih]
      simp [List.append_assoc]

/-- While the user is speaking, every input-audio frame is appended to the
utterance buffer and nothing is forwarded. -/
theorem runAudioBuffer_buffering (cfg : AudioBufferConfig)
    (frames : List (List Nat × Nat × Nat)) :
    ∀ (buf prb : List (List Nat)),
      runAudioBuffer cfg ⟨buf, prb, true⟩
          (frames.map fun a => .inputAudio a.1 a.2.1 a.2.2)
        = (⟨buf ++ frames.map Prod.fst, prb, true⟩, []) := by
  induction frames with
  | nil => intro buf prb; simp [runAudioBuffer]
  | cons a frames ih =>
      intro buf prb
      simp only [List.map_cons, runAudioBuffer, audioBufferProcessFrame, if_true]
      rw [ih (buf ++ [a.1]) prb]
      simp

/-- C8 counterexample: the combined input-audio frame is emitted *before* the
forwarded user-stopped-speaking frame, not after it as the claim (and the S5
scenario) states. -/
theorem audioBuffer_order_c8_counterexample :
    (runAudioBuffer {} {} [.userStartedSpeaking, .inputAudio [1, 2] 16000 1,
        .userStoppedSpeaking]).2
      = [.userStartedSpeaking, .inputAudio [1, 2] 16000 1, .userStoppedSpeaking]
    ∧ ¬ List.Sublist [FrameKind.userStoppedSpeaking, .inputAudio [1, 2] 16000 1]
        ((runAudioBuffer {} {} [.userStartedSpeaking, .inputAudio [1, 2] 16000 1,
            .userStoppedSpeaking]).2) :=
  ⟨by decide, by decide⟩

/-- C8 (amended): for a user-started-speaking frame, k input-audio frames and
a user-stopped-speaking frame, none of the k audio frames is forwarded, both
speaking-state frames are forwarded, and exactly one input-audio frame is
emitted — immediately *before* the forwarded user-stopped-speaking frame —
whose bytes are the concatenation of any pre-roll with the k chunks, so its
length is the corresponding sum of lengths (the incoming frames' sample rates
and channel counts are ignored in favor of the configured ones). -/
theorem audioBuffer_batch_c8 :
    ∀ (cfg : AudioBufferConfig) (pr : List (List Nat))
      (frames : List (List Nat × Nat × Nat)),
      frames ≠ [] →
      (runAudioBuffer cfg { preRollBuffer := pr }
          (.userStartedSpeaking
            :: ((frames.map fun a => .inputAudio a.1 a.2.1 a.2.2)
              ++ [.userStoppedSpeaking]))).2
        = [.userStartedSpeaking,
           .inputAudio ((pr ++ frames.map Prod.fst).flatten) cfg.sampleRate
             cfg.numChannels,
           .userStoppedSpeaking]
      ∧ ((pr ++ frames.map Prod.fst).flatten).length
          = (pr.map List.length).sum + ((frames.map fun a => a.1.length).sum) := by
  intro cfg pr frames hne
  have hbuf : pr ++ frames.map Prod.fst ≠ [] := by
    intro hc
    rcases List.append_eq_nil.1 hc with ⟨-, hc2⟩
    exact hne (List.map_eq_nil_iff.1 hc2)
  have hpos : 0 < (pr ++ frames.map Prod.fst).length := List.length_pos.2 hbuf
  constructor
  · have hstep : runAudioBuffer cfg { preRollBuffer := pr }
        (.userStartedSpeaking
          :: ((frames.map fun a => .inputAudio a.1 a.2.1 a.2.2)
            ++ [.userStoppedSpeaking]))
        = ((runAudioBuffer cfg ⟨pr, [], true⟩
              ((frames.map fun a => .inputAudio a.1 a.2.1 a.2.2)
                ++ [.userStoppedSpeaking])).1,
           [.userStartedSpeaking]
             ++ (runAudioBuffer cfg ⟨pr, [], true⟩
              ((frames.map fun a => .inputAudio a.1 a.2.1 a.2.2)
                ++ [.userStoppedSpeaking])).2) := by
      simp [runAudioBuffer, audioBufferProcessFrame]
    rw [hstep, runAudioBuffer_append cfg _ _ ⟨pr, [], true⟩,
      runAudioBuffer_buffering cfg frames pr []]
    simp only [runAudioBuffer, audioBufferProcessFrame]
    rw [if_pos hpos]
    simp
  · simp [List.length_flatten, List.map_map, List.sum_append, Function.comp_def]

/-- Witness for `audioBuffer_batch_c8`: four 2-byte chunks, no pre-roll,
one 8-byte combined frame between the forwarded speaking-state frames. -/
theorem audioBuffer_batch_c8_witness :
    (([([1, 2], 16000, 1), ([3, 4], 16000, 1), ([5, 6], 16000, 1),
        ([7, 8], 16000, 1)] : List (List Nat × Nat × Nat)) ≠ [])
    ∧ (runAudioBuffer {} { preRollBuffer := [] }
          (.userStartedSpeaking
            :: ((([([1, 2], 16000, 1), ([3, 4], 16000, 1), ([5, 6], 16000, 1),
                ([7, 8], 16000, 1)] : List (List Nat × Nat × Nat)).map
                  fun a => .inputAudio a.1 a.2.1 a.2.2)
              ++ [.userStoppedSpeaking]))).2
        = [.userStartedSpeaking,
           .inputAudio [1, 2, 3, 4, 5, 6, 7, 8] 16000 1,
           .userStoppedSpeaking] := by
  refine ⟨by decide, ?_⟩
  have h := (audioBuffer_batch_c8 {} []
    [([1, 2], 16000, 1), ([3, 4], 16000, 1), ([5, 6], 16000, 1),
      ([7, 8], 16000, 1)] (by decide)).1
  simpa using h

/-! ### Theorems about the voice-activity detector -/

/-- A decoded 16-bit little-endian sample from two genuine bytes lies in
[-32768, 32767]. -/
theorem byteToSample_bounds (b0 b1 : Nat) (h0 : b0 < 256) (h1 : b1 < 256) :
    -32768 ≤ byteToSample b0 b1 ∧ byteToSample b0 b1 ≤ 32767 := by
  have hand : b1 &&& 128 = (b1.testBit 7).toNat * 128 := by
    have : (128 : Nat) = 2 ^ 7 := rfl
    rw [this, Nat.and_two_pow]
  cases hbit : b1.testBit 7 with
  | false =>
      have hb1small : b1 < 128 := by
        by_contra hge
        have hdiv : b1 / 128 = 1 := by omega
        rw [Nat.testBit_to_div_mod] at hbit
        norm_num [hdiv] at hbit
      have hx : b0 ||| b1 <<< 8 < 2 ^ 15 := by
        refine Nat.or_lt_two_pow (by omega) ?_
        rw [Nat.shiftLeft_eq]
        omega
      unfold byteToSample
      rw [hand, hbit]
      simp only [Bool.toNat_false, Nat.zero_mul, ne_eq, not_true_eq_false]
      norm_num
      omega
  | true =>
      have hge : 2 ^ 15 ≤ b0 ||| b1 <<< 8 := by
        apply Nat.testBit_implies_ge
        rw [Nat.testBit_or, Nat.testBit_shiftLeft]
        simp [hbit]
      have hx : b0 ||| b1 <<< 8 < 2 ^ 16 := by
        refine Nat.or_lt_two_pow (by omega) ?_
        rw [Nat.shiftLeft_eq]
        omega
      unfold byteToSample
      rw [hand, hbit]
      simp only [Bool.toNat_true, Nat.one_mul]
      norm_num
      omega

/-- For an even-length buffer of genuine bytes every decoded sample lies in
[-32768, 32767]. -/
theorem decodeSamples_bounds : ∀ (audio : List Nat), (∀ b ∈ audio, b < 256) →
    audio.length % 2 = 0 →
    ∀ x ∈ decodeSamples audio, -32768 ≤ x ∧ x ≤ 32767
  | [] => by
      intro _ _ x hx
      simp [decodeSamples] at hx
  | [b] => by
      intro _ hev
      simp at hev
  | b0 :: b1 :: rest => by
      intro hb hev x hx
      have hev2 : rest.length % 2 = 0 := by
        simp only [List.length_cons] at hev
        omega
      simp only [decodeSamples, List.mem_cons] at hx
      rcases hx with rfl | hx
      · exact byteToSample_bounds b0 b1 (hb b0 (by simp)) (hb b1 (by simp))
      · exact decodeSamples_bounds rest (fun b hbr => hb b (by simp [hbr])) hev2 x hx

/-- For an even-length buffer the decoder produces exactly `length / 2`
samples. -/
theorem decodeSamples_length_even : ∀ (audio : List Nat),
    audio.length % 2 = 0 → (decodeSamples audio).length = audio.length / 2
  | [] => by intro _; simp [decodeSamples]
  | [b] => by intro hev; simp at hev
  | b0 :: b1 :: rest => by
      intro hev
      have hev2 : rest.length % 2 = 0 := by
        simp only [List.length_cons] at hev
        omega
      simp only [decodeSamples, List.length_cons,
        decodeSamples_length_even rest hev2]
      omega

/-- For an even-length buffer of genuine bytes the mean squared normalized
volume is at most one. -/
theorem volumeSq_le_one (audio : List Nat) (hb : ∀ b ∈ audio, b < 256)
    (hev : audio.length % 2 = 0) : volumeSq audio ≤ 1 := by
  by_cases hl2 : audio.length < 2
  · rw [volumeSq, if_pos hl2]
    exact zero_le_one
  · rw [volumeSq, if_neg hl2]
    have hterm : ∀ q ∈ (decodeSamples audio).map (fun (s : ℤ) => ((s : ℚ) / 32768) ^ 2),
        q ≤ 1 := by
      intro q hq
      obtain ⟨x, hx, rfl⟩ := List.mem_map.1 hq
      obtain ⟨hlo, hhi⟩ := decodeSamples_bounds audio hb hev x hx
      rw [div_pow, div_le_one (by norm_num)]
      have hc1 : -(32768 : ℚ) ≤ (x : ℚ) := by exact_mod_cast hlo
      have hc2 : (x : ℚ) ≤ 32768 := by
        have : x ≤ (32768 : ℤ) := le_trans hhi (by norm_num)
        exact_mod_cast this
      calc ((x : ℚ)) ^ 2 ≤ (32768 : ℚ) ^ 2 := sq_le_sq' hc1 hc2
        _ = 32768 ^ 2 := by norm_num
    have hsum : ((decodeSamples audio).map (fun (s : ℤ) => ((s : ℚ) / 32768) ^ 2)).sum
        ≤ (((decodeSamples audio).length : ℚ)) := by
      have h := List.sum_le_card_nsmul
        ((decodeSamples audio).map (fun (s : ℤ) => ((s : ℚ) / 32768) ^ 2)) 1 hterm
      simpa using h
    have hlen : (decodeSamples audio).length = audio.length / 2 :=
      decodeSamples_length_even audio hev
    have hn : (0 : ℚ) < ((audio.length / 2 : ℕ) : ℚ) := by
      have h1 : 1 ≤ audio.length / 2 := by omega
      exact_mod_cast Nat.lt_of_lt_of_le Nat.zero_lt_one h1
    rw [div_le_one hn]
    calc ((decodeSamples audio).map (fun (s : ℤ) => ((s : ℚ) / 32768) ^ 2)).sum
        ≤ (((decodeSamples audio).length : ℚ)) := hsum
      _ = ((audio.length / 2 : ℕ) : ℚ) := by rw [hlen]

/-- C9 counterexample: with `threshold = 0` an all-zero (silent) frame is
*not* classified as speech (the comparison is strict), and with
`threshold = 1` a malformed odd-length frame *is* classified as speech (the
stray trailing byte adds an extra term while the divisor counts only full
samples). -/
theorem vad_extremes_c9_counterexample :
    detectSpeech [0, 0] 0 = false ∧ detectSpeech [0, 128, 255] 1 = true := by
  constructor <;>
    simp [detectSpeech, volumeSq, decodeSamples, byteToSample, Nat.shiftLeft_eq,
      Nat.zero_or, Nat.and_self]

/-- C9 (amended): the speech decision is antitone in the threshold over the
configured range `0 ≤ t`; with `threshold = 0` a frame is classified as
speech iff its mean squared volume is strictly positive (in particular a
perfectly silent frame is not speech); and with `threshold = 1` no
well-formed frame — even length, genuine bytes — is classified as speech. -/
theorem vad_monotone_c9 :
    (∀ (audio : List Nat) (t1 t2 : ℚ), 0 ≤ t1 → t1 ≤ t2 →
        detectSpeech audio t2 = true → detectSpeech audio t1 = true)
    ∧ (∀ audio : List Nat, detectSpeech audio 0 = true ↔ 0 < volumeSq audio)
    ∧ (∀ audio : List Nat, (∀ b ∈ audio, b < 256) → audio.length % 2 = 0 →
        detectSpeech audio 1 = false) := by
  refine ⟨?_, ?_, ?_⟩
  · intro audio t1 t2 h1 h12 hs
    rw [detectSpeech, decide_eq_true_eq] at hs ⊢
    have hsq : t1 * t1 ≤ t2 * t2 :=
      mul_le_mul h12 h12 h1 (le_trans h1 h12)
    exact lt_of_le_of_lt hsq hs
  · intro audio
    rw [detectSpeech, decide_eq_true_eq]
    constructor <;> intro h <;> simpa using h
  · intro audio hb hev
    rw [detectSpeech, decide_eq_false_iff_not]
    intro hlt
    have := volumeSq_le_one audio hb hev
    nlinarith
/-- Witness for `vad_monotone_c9`: monotonicity applied at thresholds 0 ≤ 1
on a frame loud enough to pass threshold 1, and the threshold-1 clause
applied to a well-formed full-scale frame. -/
theorem vad_monotone_c9_witness :
    (((0 : ℚ) ≤ 0 ∧ (0 : ℚ) ≤ 1 ∧ detectSpeech [0, 128, 255] 1 = true)
      ∧ (∀ b ∈ ([0, 128] : List Nat), b < 256) ∧ ([0, 128] : List Nat).length % 2 = 0)
    ∧ detectSpeech [0, 128, 255] 0 = true
    ∧ detectSpeech [0, 128] 1 = false :=
  ⟨⟨⟨le_refl 0, zero_le_one,
     by simp [detectSpeech, volumeSq, decodeSamples, byteToSample,
       Nat.shiftLeft_eq, Nat.zero_or, Nat.and_self]⟩,
    by decide, rfl⟩,
   vad_monotone_c9.1 [0, 128, 255] 0 1 (le_refl 0) zero_le_one
     (by simp [detectSpeech, volumeSq, decodeSamples, byteToSample,
       Nat.shiftLeft_eq, Nat.zero_or, Nat.and_self]),
   vad_monotone_c9.2.2 [0, 128] (by decide) rfl⟩

end Pipecat
